import Mathlib

/-!
Verification of the per-guild playback session manager of a Discord music
bot (src/bot/music.py) against its natural-language specification.

The embedding is shallow: each Python method of `MusicQueue` and the queue
related parts of the `Music` cog become a pure Lean function on an explicit
state.  Python's in-place mutation becomes state passing: a method that both
returns a value and mutates its object becomes a function returning a pair
of the value and the new state.
-/

/-- Embeds `YTDLSource` (music.py, class YTDLSource): the track metadata the
queue stores.  Only the fields set in `__init__` matter to the queue logic;
equality is structural. -/
structure YTDLSource where
  title : String
  url : String
  duration : Option Nat
  thumbnail : Option String
  uploader : Option String
  deriving DecidableEq

/-- Embeds `MusicQueue.__init__` state (music.py lines 134-138): `queue` is
the FIFO list of pending tracks, `current` the track currently bound to the
transport, and the two loop flags. -/
structure MusicQueue where
  queue : List YTDLSource
  current : Option YTDLSource
  loop_song : Bool
  loop_queue : Bool
  deriving DecidableEq

/-- A fresh queue, as built by `MusicQueue.__init__` (music.py 134-138). -/
def MusicQueue.init : MusicQueue :=
  { queue := [], current := none, loop_song := false, loop_queue := false }

/-- Embeds `MusicQueue.add` (music.py 140-142): append to the pending list. -/
def MusicQueue.add (q : MusicQueue) (s : YTDLSource) : MusicQueue :=
  { q with queue := q.queue ++ [s] }

/-- Embeds `MusicQueue.get_next` (music.py 144-158).  Python truthiness of
`self.current` (an object) is `Option.isSome`.  Returns the produced track
together with the post-state. -/
def MusicQueue.get_next (q : MusicQueue) : Option YTDLSource × MusicQueue :=
  if q.loop_song && q.current.isSome then
    (q.current, q)
  else
    match q.queue with
    | [] => (none, q)
    | next :: rest =>
      let rest2 := if q.loop_queue && q.current.isSome then rest ++ q.current.toList else rest
      (some next, { q with queue := rest2, current := some next })

/-- Embeds `MusicQueue.clear` (music.py 160-163). -/
def MusicQueue.clear (q : MusicQueue) : MusicQueue :=
  { q with queue := [], current := none }

/-- Embeds `MusicQueue.skip` (music.py 165-167): delegates to `get_next`. -/
def MusicQueue.skip (q : MusicQueue) : Option YTDLSource × MusicQueue :=
  q.get_next

/-- Runs `get_next` `n` times from `q`, collecting the returned tracks in
order (the result sequence of successive Advance calls). -/
def runAdvance : MusicQueue → Nat → List (Option YTDLSource)
  | _, 0 => []
  | q, n + 1 =>
    let r := q.get_next
    r.1 :: runAdvance r.2 n

/-- The queue state after `n` successive `get_next` calls. -/
def stateAfter (q : MusicQueue) : Nat → MusicQueue
  | 0 => q
  | n + 1 => ((stateAfter q n).get_next).2

/-- The track returned by the `(n+1)`-th `get_next` call starting from `q`
(0-indexed). -/
def resultAt (q : MusicQueue) (n : Nat) : Option YTDLSource :=
  ((stateAfter q n).get_next).1

/-- Sample track used in concrete witnesses and counterexamples. -/
def tA : YTDLSource :=
  { title := "A", url := "urlA", duration := none, thumbnail := none, uploader := none }

/-- Second sample track, distinct from `tA`. -/
def tB : YTDLSource :=
  { title := "B", url := "urlB", duration := none, thumbnail := none, uploader := none }

/-- Embeds the slice of `discord.VoiceClient` the cog consults: whether the
client is connected (`is_connected`) and whether audio is being produced
(`is_playing`). -/
structure VoiceClient where
  connected : Bool
  playing : Bool
  deriving DecidableEq

/-- Embeds the `Music` cog state (music.py 172-176): the per-guild queue
registry `queues` and the per-guild voice-client registry `voice_clients`,
both dictionaries keyed by guild id. -/
structure Music where
  queues : Nat → Option MusicQueue
  voice_clients : Nat → Option VoiceClient

/-- A fresh cog state: both registries empty, as in `Music.__init__`. -/
def Music.initState : Music :=
  { queues := fun _ => none, voice_clients := fun _ => none }

/-- Embeds `Music.get_queue` (music.py 178-182): look up the guild's queue,
lazily inserting a fresh one when absent.  Returns the queue together with
the (possibly extended) cog state. -/
def Music.get_queue (m : Music) (g : Nat) : MusicQueue × Music :=
  match m.queues g with
  | some q => (q, m)
  | none =>
    (MusicQueue.init,
     { m with queues := fun g2 => if g2 = g then some MusicQueue.init else m.queues g2 })

/-- Embeds `Music.play_next` (music.py 184-199).  The first component models
the transport start: `some s` when `voice_client.play(s)` is issued, `none`
when the method returns without starting playback.  The second component is
the cog state afterwards; `queue.get_next()` mutates the stored queue in
place, which here becomes writing the post-state back into the registry. -/
def Music.play_next (m : Music) (g : Nat) : Option YTDLSource × Music :=
  let p := m.get_queue g
  match p.2.voice_clients g with
  | none => (none, p.2)
  | some vc =>
    if vc.connected then
      let r := p.1.get_next
      (r.1, { p.2 with queues := fun g2 => if g2 = g then some r.2 else p.2.queues g2 })
    else
      (none, p.2)

/-- What the `after` callback attached to `voice_client.play` does once the
transport reports completion (music.py 196-198 and 319-321): on a falsy
error it schedules `play_next` for the guild, otherwise it only logs. -/
inductive AfterAction where
  | scheduleAdvance (guild : Nat)
  | logError
  deriving DecidableEq

/-- Embeds the completion callback
`lambda e: ... play_next(guild_id) ... if not e else logger.error(...)`
(music.py 196-198): the error object is truthy exactly when present. -/
def playAfterCallback (g : Nat) (e : Option String) : AfterAction :=
  if e.isSome then AfterAction.logError else AfterAction.scheduleAdvance g

/-- One transport-completion event delivered to the session of guild `g`:
the callback either schedules `play_next` (which then runs) or logs the
error and leaves the cog state untouched.  The first component again models
the transport start issued, if any. -/
def onTransportCompleted (m : Music) (g : Nat) (e : Option String) :
    Option YTDLSource × Music :=
  match playAfterCallback g e with
  | AfterAction.scheduleAdvance g2 => m.play_next g2
  | AfterAction.logError => (none, m)

/-- Outcome reported to the user by `Music._play_music` (music.py 311-346). -/
inductive PlayOutcome where
  | nowPlaying (s : YTDLSource)
  | addedToQueue (position : Nat)
  deriving DecidableEq

/-- Embeds the guild branch of `Music._play_music` (music.py 311-346) after
the source has been resolved: when a voice client exists and is not playing,
the track becomes `current` and a transport start is issued; otherwise the
track is appended to the queue and its 1-based position `len(queue.queue)`
is reported.  Components: post-queue, transport start issued, outcome. -/
def playMusicGuildStep (q : MusicQueue) (vc : Option VoiceClient) (s : YTDLSource) :
    MusicQueue × Option YTDLSource × PlayOutcome :=
  match vc with
  | some v =>
    if !v.playing then
      ({ q with current := some s }, some s, PlayOutcome.nowPlaying s)
    else
      let q2 := q.add s
      (q2, none, PlayOutcome.addedToQueue q2.queue.length)
  | none =>
    let q2 := q.add s
    (q2, none, PlayOutcome.addedToQueue q2.queue.length)

/-- The cog state used for the stale-completion scenario: guild 1 has a
connected, currently idle voice client, `current = tA` (the track whose
superseded transport start the late signal belongs to) and `tB` pending. -/
def staleScenario : Music :=
  { queues := fun g =>
      if g = 1 then
        some { queue := [tB], current := some tA, loop_song := false, loop_queue := false }
      else none,
    voice_clients := fun g =>
      if g = 1 then some { connected := true, playing := false } else none }

/-- C1 counterexample: with `pending` empty, `loopTrack` false and `current`
present (`tA`), `get_next` returns absent but does NOT set `current` to
absent, contradicting the claim as stated. -/
theorem C1_current_not_cleared :
    ((MusicQueue.mk [] (some tA) false false).get_next).2.current ≠ none := by
  decide

/-- C1 (amended): for every queue state in which `pending` is empty and
`loopTrack` is false (or `current` is absent), `get_next` returns absent and
leaves the whole state, including `current`, unchanged; in particular a
previously absent `current` stays absent, but a present one is retained
rather than cleared. -/
theorem C1_empty_advance (q : MusicQueue) (hq : q.queue = [])
    (h : q.loop_song = false ∨ q.current = none) :
    q.get_next = (none, q) := by
  have hcond : (q.loop_song && q.current.isSome) = false := by
    rcases h with h | h <;> simp [h]
  simp [MusicQueue.get_next, hcond, hq]

/-- C1 witness: concrete instantiation of the amended claim at a queue with
empty `pending`, `loopTrack` false and `current = tA`. -/
theorem C1_empty_advance_witness :
    (MusicQueue.mk [] (some tA) false false).get_next
      = (none, MusicQueue.mk [] (some tA) false false) :=
  C1_empty_advance (MusicQueue.mk [] (some tA) false false) rfl (Or.inl rfl)

/-- C4: with `loopTrack` true and `current` present, `get_next` returns that
same `current` track and leaves the entire queue state (pending, current,
both loop flags) unchanged, whatever the value of `loopQueue`; repeated
calls therefore keep returning the same track. -/
theorem C4_loop_song_idempotent (q : MusicQueue) (hs : q.loop_song = true)
    (hc : q.current.isSome = true) :
    q.get_next = (q.current, q) := by
  simp [MusicQueue.get_next, hs, hc]

/-- C4 witness: concrete instantiation with `current = tA`, `loopTrack` and
`loopQueue` both true, one pending track. -/
theorem C4_loop_song_idempotent_witness :
    (MusicQueue.mk [tB] (some tA) true true).get_next
      = (some tA, MusicQueue.mk [tB] (some tA) true true) :=
  C4_loop_song_idempotent (MusicQueue.mk [tB] (some tA) true true) rfl rfl

/-- C5: when the transport reports completion with a present error, the
callback only logs: `play_next` is not scheduled, the cog state (hence every
guild's `pending`, `current` and loop flags) is unchanged, and no transport
start is issued. -/
theorem C5_error_no_advance (m : Music) (g : Nat) (e : Option String)
    (he : e.isSome = true) :
    onTransportCompleted m g e = (none, m) := by
  simp [onTransportCompleted, playAfterCallback, he]

/-- C5 witness: concrete instantiation at the stale-completion cog state
with an error-carrying completion signal. -/
theorem C5_error_no_advance_witness :
    onTransportCompleted staleScenario 1 (some "boom") = (none, staleScenario) :=
  C5_error_no_advance staleScenario 1 (some "boom") rfl

/-- C6 (code evaluated at the failing input): the code carries no generation
id at all, so a late error-free completion signal from a superseded
pre-stop transport start is not discarded: the callback schedules
`play_next`, which pops `tB` and issues a new transport start, instead of
leaving the session stopped with no new playback. -/
theorem C6_stale_completion_starts_playback :
    (onTransportCompleted staleScenario 1 none).1 = some tB := by
  decide

/-- C7: `skip` is extensionally equal to `get_next` on every queue state:
same returned track, same post-state on `pending`, `current` and both loop
flags. -/
theorem C7_skip_eq_get_next (q : MusicQueue) : q.skip = q.get_next := rfl

/-- `get_queue` never touches the voice-client registry. -/
lemma get_queue_voice_clients (m : Music) (g : Nat) :
    ((m.get_queue g).2).voice_clients = m.voice_clients := by
  cases h : m.queues g <;> simp [Music.get_queue, h]

/-- When the guild already has a stored queue, `get_queue` returns it and
leaves the cog state untouched. -/
lemma get_queue_of_some (m : Music) (g : Nat) (q : MusicQueue)
    (h : m.queues g = some q) : m.get_queue g = (q, m) := by
  simp [Music.get_queue, h]

/-- When the guild has no stored queue, `get_queue` returns a fresh one. -/
lemma get_queue_fst_of_none (m : Music) (g : Nat) (h : m.queues g = none) :
    (m.get_queue g).1 = MusicQueue.init := by
  simp [Music.get_queue, h]

/-- After `get_queue`, the guild's registry entry holds exactly the
returned queue. -/
lemma get_queue_queues_self (m : Music) (g : Nat) :
    ((m.get_queue g).2).queues g = some ((m.get_queue g).1) := by
  cases h : m.queues g <;> simp [Music.get_queue, h]

/-- `get_queue` for one guild leaves every other guild's entry unchanged. -/
lemma get_queue_queues_other (m : Music) (g g2 : Nat) (h : g2 ≠ g) :
    ((m.get_queue g).2).queues g2 = m.queues g2 := by
  cases hq : m.queues g <;> simp [Music.get_queue, hq, h]

/-- C8: `get_queue` returns the stored queue unchanged when one exists and
otherwise creates, stores and returns a fresh empty queue (empty `pending`,
absent `current`, both loop flags false, i.e. `MusicQueue.init`); a second
call with the same guild id returns the same queue and state, and entries
of every other guild are untouched. -/
theorem C8_get_or_create (m : Music) (g : Nat) :
    (∀ q, m.queues g = some q → m.get_queue g = (q, m)) ∧
    (m.queues g = none →
      (m.get_queue g).1 = MusicQueue.init ∧
      ((m.get_queue g).2).queues g = some MusicQueue.init) ∧
    ((m.get_queue g).2).get_queue g = ((m.get_queue g).1, (m.get_queue g).2) ∧
    (∀ g2, g2 ≠ g → ((m.get_queue g).2).queues g2 = m.queues g2) := by
  refine ⟨fun q hq => get_queue_of_some m g q hq, fun hn => ?_, ?_, ?_⟩
  · have h1 := get_queue_fst_of_none m g hn
    have h2 := get_queue_queues_self m g
    exact ⟨h1, by rw [h2, h1]⟩
  · exact get_queue_of_some _ g _ (get_queue_queues_self m g)
  · exact fun g2 h => get_queue_queues_other m g g2 h

/-- C8 witness: from the empty cog state, `get_queue 1` creates and returns
the fresh empty queue, leaves guild 2 absent, and a repeated call is stable. -/
theorem C8_get_or_create_witness :
    ((Music.initState.get_queue 1).1 = MusicQueue.init ∧
      ((Music.initState.get_queue 1).2).queues 1 = some MusicQueue.init) ∧
    ((Music.initState.get_queue 1).2).queues 2 = Music.initState.queues 2 ∧
    ((Music.initState.get_queue 1).2).get_queue 1
      = ((Music.initState.get_queue 1).1, (Music.initState.get_queue 1).2) :=
  ⟨(C8_get_or_create Music.initState 1).2.1 rfl,
   (C8_get_or_create Music.initState 1).2.2.2 2 (by decide),
   (C8_get_or_create Music.initState 1).2.2.1⟩

/-- C10: when the guild has no bound voice client, or the bound one is not
connected, `play_next` issues no transport start and does not advance: its
only state effect is the lazy creation performed by `get_queue`, so an
existing queue entry (pending, current, loop flags) is unchanged, a missing
entry becomes the fresh empty queue, other guilds' entries are untouched
and the voice-client registry is unchanged. -/
theorem C10_play_next_disconnected (m : Music) (g : Nat)
    (h : ∀ vc, m.voice_clients g = some vc → vc.connected = false) :
    m.play_next g = (none, (m.get_queue g).2) ∧
    (∀ q, m.queues g = some q → ((m.play_next g).2).queues g = some q) ∧
    (m.queues g = none → ((m.play_next g).2).queues g = some MusicQueue.init) ∧
    (∀ g2, g2 ≠ g → ((m.play_next g).2).queues g2 = m.queues g2) ∧
    ((m.play_next g).2).voice_clients = m.voice_clients := by
  have hv : ((m.get_queue g).2).voice_clients = m.voice_clients :=
    get_queue_voice_clients m g
  have e1 : m.play_next g = (none, (m.get_queue g).2) := by
    unfold Music.play_next
    cases hvc : m.voice_clients g with
    | none => simp [hv, hvc]
    | some vc => simp [hv, hvc, h vc hvc]
  refine ⟨e1, fun q hq => ?_, fun hn => ?_, fun g2 hne => ?_, ?_⟩
  · rw [e1]
    simpa [get_queue_of_some m g q hq] using hq
  · rw [e1, get_queue_queues_self m g, get_queue_fst_of_none m g hn]
  · rw [e1]
    exact get_queue_queues_other m g g2 hne
  · rw [e1]
    exact hv

/-- Enqueueing a whole list one by one appends it to the pending list and
touches nothing else. -/
lemma foldl_add (l : List YTDLSource) (q : MusicQueue) :
    List.foldl MusicQueue.add q l = { q with queue := q.queue ++ l } := by
  induction l generalizing q with
  | nil => simp
  | cons a as ih =>
    rw [List.foldl_cons, ih]
    simp [MusicQueue.add]

/-- `filterMap id` undoes a `map some`. -/
lemma filterMap_id_map_some (xs : List YTDLSource) :
    List.filterMap id (xs.map some) = xs := by
  induction xs with
  | nil => rfl
  | cons a as ih => simp [ih]

/-- `filterMap id` drops a run of `none`s entirely. -/
lemma filterMap_id_replicate_none (k : Nat) :
    List.filterMap id (List.replicate k (none : Option YTDLSource)) = [] := by
  induction k with
  | zero => rfl
  | succ k ih => simp [List.replicate_succ, ih]

/-- With both loop flags false, `n` successive `get_next` calls from pending
list `l` (any `current`) return the first `n` elements of `l` in order,
padded with `none` once `l` is exhausted. -/
lemma runAdvance_no_loop (n : Nat) :
    ∀ (l : List YTDLSource) (c : Option YTDLSource),
      runAdvance (MusicQueue.mk l c false false) n
        = (l.take n).map some ++ List.replicate (n - l.length) none := by
  induction n with
  | zero => intro l c; simp [runAdvance]
  | succ n ih =>
    intro l c
    cases l with
    | nil =>
      simp [runAdvance, MusicQueue.get_next, ih [] c, List.replicate_succ]
    | cons a as =>
      simp [runAdvance, MusicQueue.get_next, ih as (some a)]

/-- C2: starting from a fresh queue, enqueueing the tracks of `l` (loop
flags both false) and then calling `get_next` repeatedly returns the tracks
in exactly the enqueued order, then absent once exhausted; when the
enqueued tracks are distinct, the returned tracks contain no repetition,
so no track is ever returned twice. -/
theorem C2_fifo_order (l : List YTDLSource) (h : l.Nodup) (n : Nat) :
    runAdvance (List.foldl MusicQueue.add MusicQueue.init l) n
        = (l.take n).map some ++ List.replicate (n - l.length) none ∧
    ((runAdvance (List.foldl MusicQueue.add MusicQueue.init l) n).filterMap id).Nodup := by
  have hq : List.foldl MusicQueue.add MusicQueue.init l = MusicQueue.mk l none false false := by
    rw [foldl_add]
    rfl
  rw [hq]
  have e := runAdvance_no_loop n l none
  refine ⟨e, ?_⟩
  rw [e, List.filterMap_append, filterMap_id_replicate_none, List.append_nil,
    filterMap_id_map_some]
  exact List.Nodup.sublist (List.take_sublist n l) h

/-- C2 witness: two distinct tracks enqueued, three Advance calls: `tA`,
then `tB`, then absent, with no repetition among returned tracks. -/
theorem C2_fifo_order_witness :
    runAdvance (List.foldl MusicQueue.add MusicQueue.init [tA, tB]) 3
        = [some tA, some tB, none] ∧
    ((runAdvance (List.foldl MusicQueue.add MusicQueue.init [tA, tB]) 3).filterMap id).Nodup := by
  have h := C2_fifo_order [tA, tB] (by decide) 3
  simpa using h

/-- C3: with `loopQueue` true, `loopTrack` false, tracks `[A, B]` pending
and `current` initially absent, the results of successive `get_next` calls
alternate `A, B, A, B, …` indefinitely; moreover after each call the popped
track is the new `current` and the previous `current`, when present, has
been re-appended to the tail of `pending`. -/
theorem C3_loop_queue_rotation (A B : YTDLSource) (n : Nat) :
    resultAt (MusicQueue.mk [A, B] none false true) n
        = (if n % 2 = 0 then some A else some B) ∧
    stateAfter (MusicQueue.mk [A, B] none false true) (n + 1)
        = (if n % 2 = 0 then MusicQueue.mk [B] (some A) false true
           else MusicQueue.mk [A] (some B) false true) := by
  have hstate : ∀ k, stateAfter (MusicQueue.mk [A, B] none false true) (k + 1)
      = (if k % 2 = 0 then MusicQueue.mk [B] (some A) false true
         else MusicQueue.mk [A] (some B) false true) := by
    intro k
    induction k with
    | zero => simp [stateAfter, MusicQueue.get_next]
    | succ k ih =>
      rw [stateAfter, ih]
      rcases Nat.mod_two_eq_zero_or_one k with hk | hk
      · have hk2 : (k + 1) % 2 = 1 := by omega
        simp [hk, hk2, MusicQueue.get_next]
      · have hk2 : (k + 1) % 2 = 0 := by omega
        simp [hk, hk2, MusicQueue.get_next]
  refine ⟨?_, hstate n⟩
  cases n with
  | zero => simp [resultAt, stateAfter, MusicQueue.get_next]
  | succ k =>
    unfold resultAt
    rw [hstate k]
    rcases Nat.mod_two_eq_zero_or_one k with hk | hk
    · have hk2 : (k + 1) % 2 = 1 := by omega
      simp [hk, hk2, MusicQueue.get_next]
    · have hk2 : (k + 1) % 2 = 0 := by omega
      simp [hk, hk2, MusicQueue.get_next]

/-- C9: when a play request arrives while the voice client is already
playing, the resolved track is appended to `pending` (no transport start is
issued) and the reported 1-based position is the length of `pending` after
the append, which is exactly where the just-added track sits (it is the
last element). -/
theorem C9_enqueue_while_playing (q : MusicQueue) (v : VoiceClient)
    (s : YTDLSource) (h : v.playing = true) :
    playMusicGuildStep q (some v) s
        = (q.add s, none, PlayOutcome.addedToQueue (q.queue.length + 1)) ∧
    (q.add s).queue.length = q.queue.length + 1 ∧
    (q.add s).queue.getLast? = some s := by
  refine ⟨?_, ?_, ?_⟩
  · simp [playMusicGuildStep, h, MusicQueue.add]
  · simp [MusicQueue.add]
  · simp [MusicQueue.add]

/-- C9 witness: the two-track scenario — `tA` is current and playing, a
request for `tB` arrives: `tB` is enqueued, nothing is started, and the
reported position of `tB` is 1. -/
theorem C9_enqueue_while_playing_witness :
    playMusicGuildStep (MusicQueue.mk [] (some tA) false false)
        (some (VoiceClient.mk true true)) tB
      = (MusicQueue.mk [tB] (some tA) false false, none, PlayOutcome.addedToQueue 1) := by
  have h := (C9_enqueue_while_playing (MusicQueue.mk [] (some tA) false false)
      (VoiceClient.mk true true) tB rfl).1
  simpa [MusicQueue.add] using h

/-- C10 witness: from the empty cog state (no voice client bound for guild
1), `play_next 1` issues no start, lazily creates guild 1's empty queue and
leaves guild 2 untouched. -/
theorem C10_play_next_disconnected_witness :
    Music.initState.play_next 1 = (none, (Music.initState.get_queue 1).2) ∧
    ((Music.initState.play_next 1).2).queues 1 = some MusicQueue.init ∧
    ((Music.initState.play_next 1).2).queues 2 = Music.initState.queues 2 :=
  ⟨(C10_play_next_disconnected Music.initState 1 (fun vc hv => by exact Option.noConfusion hv)).1,
   (C10_play_next_disconnected Music.initState 1 (fun vc hv => by exact Option.noConfusion hv)).2.2.1 rfl,
   (C10_play_next_disconnected Music.initState 1 (fun vc hv => by exact Option.noConfusion hv)).2.2.2.1 2 (by decide)⟩
